import Mathlib

/-!
Verification of the article collection/parsing pipeline:
`data_collection.py` (encoder `format_article`, collector `collect_section`)
and `sensing.py` (decoder `parse_article`).

Strings are modelled as `List Char` so that the character-level operations of
the Python code (`str.strip`, `str.split("\n")`, `str.split(":", 1)`,
`",".join`, `str.replace`) become structural list functions.
-/

set_option maxHeartbeats 1000000
set_option maxRecDepth 10000

namespace MLHW

/-- A Python string, modelled as a list of characters. -/
abbrev Str := List Char

/-- The ASCII whitespace characters stripped by Python's `str.strip()`
(the model restricts to the common ASCII whitespace set). -/
def isWS (c : Char) : Bool :=
  c == ' ' || c == '\t' || c == '\n' || c == '\r' || c == '\x0B' || c == '\x0C'

/-- Python `str.strip()`: remove leading and trailing whitespace. -/
def pyStrip (s : Str) : Str :=
  List.dropWhile isWS (List.rdropWhile isWS s)

/-- Python `str.split(sep)` for a one-character separator: always returns a
non-empty list of chunks; `"".split(sep) == [""]`. -/
def splitChar (sep : Char) : Str → List Str
  | [] => [[]]
  | c :: rest =>
    if c = sep then [] :: splitChar sep rest
    else
      match splitChar sep rest with
      | [] => [[c]]
      | l :: ls => (c :: l) :: ls

/-- Python `str.split(sep, 1)` at the first occurrence of `sep`, together with
the `sep in line` test: returns `none` exactly when `sep` does not occur. -/
def splitFirst (sep : Char) : Str → Option (Str × Str)
  | [] => none
  | c :: rest =>
    if c = sep then some ([], rest)
    else (splitFirst sep rest).map fun p => (c :: p.1, p.2)

/-- Python `"\n".join(lines)`. -/
def joinLines : List Str → Str
  | [] => []
  | [l] => l
  | l :: ls => l ++ '\n' :: joinLines ls

/-- `join_csv` from `data_collection.py`: `",".join(values) if values else ""`
(the conditional is redundant since joining the empty list is already `""`). -/
def joinCSV : List Str → Str
  | [] => []
  | [v] => v
  | v :: vs => v ++ ',' :: joinCSV vs

/-- A Python `dict[str, str]`, modelled as an association list whose keys are
unique and kept in insertion order. -/
abbrev Assoc := List (Str × Str)

/-- Python `d[k] = v` on a `dict`: update the existing binding in place,
otherwise append a new one. -/
def insertKV : Assoc → Str → Str → Assoc
  | [], k, v => [(k, v)]
  | p :: rest, k, v => if p.1 = k then (k, v) :: rest else p :: insertKV rest k v

/-- Python `d.get(k)` / `d[k]` on the modelled `dict`. -/
def lookupKV : Assoc → Str → Option Str
  | [], _ => none
  | p :: rest, k => if p.1 = k then some p.2 else lookupKV rest k

/-- One iteration of the line loop in `parse_article`: if the line contains
`':'`, split once at the first `':'`, strip key and value, store the pair;
otherwise ignore the line. -/
def processLine (m : Assoc) (line : Str) : Assoc :=
  match splitFirst ':' line with
  | some (k, v) => insertKV m (pyStrip k) (pyStrip v)
  | none => m

/-- The full line loop of `parse_article` over a list of lines. -/
def processLines (m : Assoc) (ls : List Str) : Assoc :=
  ls.foldl processLine m

/-- The pure content of `parse_article` in `sensing.py`: start from the
mapping holding the synthetic `label` entry, then run the line loop over
`content.strip().split("\n")`. -/
def decodeContent (label : Str) (content : Str) : Assoc :=
  processLines [(("label").data, label)] (splitChar '\n' (pyStrip content))

/-- `parse_article` from `sensing.py`, with the file read modelled as an
`Except` value.  The outer `Except` is the channel for uncaught exceptions:
the `try/except` around `read_text` catches any read error, prints a
diagnostic and returns `None`, so the function itself never raises. -/
def parse_article (label : Str) (readResult : Except Str Str) :
    Except Str (Option Assoc) :=
  match readResult with
  | Except.error _ => Except.ok none
  | Except.ok content => Except.ok (some (decodeContent label content))

/-- The nested `fields` mapping of an API article object (only the keys the
encoder reads); `none` models an absent key. -/
structure Fields where
  headline : Option Str
  trailText : Option Str
  byline : Option Str
  bodyText : Option Str
  deriving DecidableEq, Repr

/-- One element of the `tags` sequence of an API article object. -/
structure Tag where
  id : Option Str
  title : Option Str
  type : Option Str
  deriving DecidableEq, Repr

/-- An API article object: the keys read by `format_article` and
`collect_section`.  `fields = none` models both a missing `fields` key and a
null value (the code collapses both via `article.get("fields", {}) or {}`);
likewise for `tags`. -/
structure Article where
  id : Option Str
  sectionId : Option Str
  sectionName : Option Str
  webTitle : Option Str
  webUrl : Option Str
  fields : Option Fields
  tags : Option (List Tag)
  deriving DecidableEq, Repr

/-- `article.get("fields", {}) or {}`. -/
def fieldsD (a : Article) : Fields :=
  a.fields.getD { headline := none, trailText := none, byline := none, bodyText := none }

/-- `article.get("tags", []) or []`. -/
def tagsD (a : Article) : List Tag :=
  a.tags.getD []

/-- `primary_tag.get("id", "") if primary_tag else ""` where
`primary_tag = tags[0] if tags else None`. -/
def primaryId (a : Article) : Str :=
  ((tagsD a).head?.map fun t => t.id.getD []).getD []

/-- Primary tag title, derived like `primaryId`. -/
def primaryTitle (a : Article) : Str :=
  ((tagsD a).head?.map fun t => t.title.getD []).getD []

/-- Primary tag type, derived like `primaryId`. -/
def primaryType (a : Article) : Str :=
  ((tagsD a).head?.map fun t => t.type.getD []).getD []

/-- The 14 header lines built by `format_article`, in source order, before
they are joined with newlines. -/
def formatLines (article : Article) : List Str :=
  let fields := fieldsD article
  let tags := tagsD article
  let body_text := fields.bodyText.getD []
  let tag_ids := tags.map fun tag => tag.id.getD []
  let tag_titles := tags.map fun tag => tag.title.getD []
  [("ID: ").data ++ article.id.getD [],
   ("SECTION_ID: ").data ++ article.sectionId.getD [],
   ("SECTION_NAME: ").data ++ article.sectionName.getD [],
   ("WEB_TITLE: ").data ++ article.webTitle.getD [],
   ("WEB_URL: ").data ++ article.webUrl.getD [],
   ("HEADLINE: ").data ++ fields.headline.getD [],
   ("TRAIL_TEXT: ").data ++ fields.trailText.getD [],
   ("BYLINE: ").data ++ fields.byline.getD [],
   ("BODY_TEXT: ").data ++ body_text,
   ("TAGS_IDS: ").data ++ joinCSV tag_ids,
   ("TAGS_TITLES: ").data ++ joinCSV tag_titles,
   ("PRIMARY_TAG_ID: ").data ++ primaryId article,
   ("PRIMARY_TAG_TITLE: ").data ++ primaryTitle article,
   ("PRIMARY_TAG_TYPE: ").data ++ primaryType article]

/-- `format_article` from `data_collection.py`: `"\n".join(lines)`. -/
def format_article (article : Article) : Str :=
  joinLines (formatLines article)

/-- The 14 `(key, value)` pairs underlying `formatLines`. -/
def articleKVs (a : Article) : List (Str × Str) :=
  [(("ID").data, a.id.getD []),
   (("SECTION_ID").data, a.sectionId.getD []),
   (("SECTION_NAME").data, a.sectionName.getD []),
   (("WEB_TITLE").data, a.webTitle.getD []),
   (("WEB_URL").data, a.webUrl.getD []),
   (("HEADLINE").data, (fieldsD a).headline.getD []),
   (("TRAIL_TEXT").data, (fieldsD a).trailText.getD []),
   (("BYLINE").data, (fieldsD a).byline.getD []),
   (("BODY_TEXT").data, (fieldsD a).bodyText.getD []),
   (("TAGS_IDS").data, joinCSV ((tagsD a).map fun t => t.id.getD [])),
   (("TAGS_TITLES").data, joinCSV ((tagsD a).map fun t => t.title.getD [])),
   (("PRIMARY_TAG_ID").data, primaryId a),
   (("PRIMARY_TAG_TITLE").data, primaryTitle a),
   (("PRIMARY_TAG_TYPE").data, primaryType a)]

/-- The serialized shape of one header line: `f"KEY: {value}"`. -/
def mkLine (k v : Str) : Str :=
  k ++ ':' :: ' ' :: v

/-- A bare article carrying only an id, used as a building block for the
concrete scenarios below. -/
def mkA (s : Str) : Article :=
  { id := some s, sectionId := none, sectionName := none,
    webTitle := none, webUrl := none, fields := none, tags := none }

/-! ## The collection loop of `collect_section` -/

/-- `str(n)` for the page/count interpolation in the fallback file name. -/
def natStr (n : Nat) : Str :=
  (Nat.repr n).data

/-- `article.get("id", "").replace("/", "_")`. -/
def sanitizeId (s : Str) : Str :=
  s.map fun c => if c = '/' then '_' else c

/-- `art_id = article.get("id", "").replace("/", "_") or f"(target_name)_(page)_(count)"`:
the fallback fires exactly when the sanitized id is the empty (falsy) string. -/
def artId (targetName : Str) (page count : Nat) (article : Article) : Str :=
  let raw := sanitizeId (article.id.getD [])
  if raw = [] then
    targetName ++ ('_' :: natStr page) ++ ('_' :: natStr count)
  else raw

/-- `out_path = out_dir / f"(art_id).txt"`, relative to the category directory. -/
def artFileName (targetName : Str) (page count : Nat) (article : Article) : Str :=
  artId targetName page count article ++ (".txt").data

/-- The mutable state of one `collect_section` invocation, together with the
contents of the category directory (`store`: file name to file text, in
creation order) and two observation counters: `requests` counts content-source
page fetches and `sleeps` counts executed `time.sleep` calls. -/
structure CState where
  count : Nat
  page : Nat
  store : List (Str × Str)
  requests : Nat
  sleeps : Nat
  deriving DecidableEq, Repr

/-- The `while count < ARTICLES_PER_SECTION` loop of `collect_section`,
driven by `fuel` iterations of the `while` loop; the source is modelled as a
function from page number to that page's results.  Returns `(true, s)` when
the loop exited (quota reached or empty page) and `(false, s)` when `fuel`
iterations did not suffice.

Faithful to the source, per `while` iteration:
* the page is fetched (one request);
* an empty result list breaks the loop;
* the `for article in results` loop only breaks when `count` has reached the
  quota, which is impossible at this point, so it leaves `article` bound to
  the *last* element of the page;
* if that article's file exists, `continue` restarts the `while` loop with
  page, count and store unchanged (and no sleep);
* otherwise the file is written, `count` is incremented, the loop breaks if
  the quota is reached, and otherwise `page` is incremented and the process
  sleeps before the next fetch. -/
def collectRun (pages : Nat → List Article) (targetName : Str) (quota : Nat) :
    Nat → CState → Bool × CState
  | 0, s => (false, s)
  | fuel + 1, s =>
    if s.count < quota then
      let s1 : CState := { s with requests := s.requests + 1 }
      match (pages s1.page).getLast? with
      | none => (true, s1)
      | some article =>
        let fname := artFileName targetName s1.page s1.count article
        if fname ∈ s1.store.map Prod.fst then
          collectRun pages targetName quota fuel s1
        else
          let s2 : CState :=
            { s1 with store := s1.store ++ [(fname, format_article article)],
                      count := s1.count + 1 }
          if quota ≤ s2.count then (true, s2)
          else
            collectRun pages targetName quota fuel
              { s2 with page := s2.page + 1, sleeps := s2.sleeps + 1 }
    else (true, s)

/-- `collect_section` for one category: run the collection loop from page 1
with zero progress, on top of the (possibly non-empty) existing category
directory `initStore`. -/
def collect_section (pages : Nat → List Article) (targetName : Str)
    (quota fuel : Nat) (initStore : List (Str × Str)) : Bool × CState :=
  collectRun pages targetName quota fuel
    { count := 0, page := 1, store := initStore, requests := 0, sleeps := 0 }

/-- A deterministic two-page content source: page 1 holds articles `a,b,c`,
page 2 holds `d,e,f`, later pages are empty. -/
def pagesEx : Nat → List Article := fun p =>
  if p = 1 then [mkA (("a").data), mkA (("b").data), mkA (("c").data)]
  else if p = 2 then [mkA (("d").data), mkA (("e").data), mkA (("f").data)]
  else []

/-- The category directory after the page-1 article `c` has been stored. -/
def storeC : List (Str × Str) :=
  [(("c.txt").data, format_article (mkA (("c").data)))]

/-- A fully populated article with clean field values, for round-trip
witnesses. -/
def articleW : Article :=
  { id := some ("world/1").data, sectionId := some ("news").data,
    sectionName := some ("News").data, webTitle := some ("A headline").data,
    webUrl := some ("https://example.org/a").data,
    fields := some { headline := some ("A headline").data,
                     trailText := some ("Short summary").data,
                     byline := some ("Jo Writer").data,
                     bodyText := some ("Body text here.").data },
    tags := some [{ id := some ("tone/news").data, title := some ("News").data,
                    type := some ("tone").data },
                  { id := some ("world/europe").data, title := some ("Europe").data,
                    type := some ("keyword").data }] }

/-- An article whose web title carries leading whitespace: the decoder strips
it, so the round trip loses it. -/
def articleWS : Article :=
  { id := some ("a").data, sectionId := none, sectionName := none,
    webTitle := some (" x").data, webUrl := none, fields := none, tags := none }

/-- An article whose web title embeds a newline and a forged `ID:` line. -/
def articleNL : Article :=
  { id := some ("a").data, sectionId := none, sectionName := none,
    webTitle := some ("x\nID: z").data, webUrl := none, fields := none, tags := none }

/-- An article whose web title embeds a newline and a forged `label:` line. -/
def articleInj : Article :=
  { id := some ("a").data, sectionId := none, sectionName := none,
    webTitle := some ("x\nlabel: hacked").data, webUrl := none,
    fields := none, tags := none }

/-- An article with the two-tag sequence of the tag-derivation property. -/
def articleTags : Article :=
  { id := none, sectionId := none, sectionName := none, webTitle := none,
    webUrl := none, fields := none,
    tags := some [{ id := some ("t1").data, title := some ("T1").data, type := none },
                  { id := some ("t2").data, title := some ("T2").data, type := none }] }

/-- An article whose tag sequence is present but empty. -/
def articleNoTags : Article :=
  { id := none, sectionId := none, sectionName := none, webTitle := none,
    webUrl := none, fields := none, tags := some [] }

/-- An article lacking the nested `fields` mapping entirely. -/
def articleNoFields : Article :=
  { id := some ("a").data, sectionId := none, sectionName := none,
    webTitle := none, webUrl := none, fields := none, tags := none }

/-- An article whose `fields` mapping is present but carries none of the
keys the encoder reads. -/
def articleEmptyFields : Article :=
  { id := some ("a").data, sectionId := none, sectionName := none,
    webTitle := none, webUrl := none,
    fields := some { headline := none, trailText := none, byline := none,
                     bodyText := none },
    tags := none }

/-- An article with no id at all. -/
def articleNoId : Article :=
  { id := none, sectionId := none, sectionName := none, webTitle := none,
    webUrl := none, fields := none, tags := none }

/-! ## Well-formedness predicates on strings and articles -/

/-- A string that survives the decoder unchanged: it contains no newline
(so it stays on one header line) and carries no leading or trailing
whitespace (so the decoder's `strip` of the value is the identity). -/
def cleanStr (s : Str) : Prop :=
  '\n' ∉ s ∧ List.dropWhile isWS s = s ∧ List.rdropWhile isWS s = s

instance (s : Str) : Decidable (cleanStr s) := by
  unfold cleanStr; infer_instance

/-- Every string used to construct the article is newline-free. -/
def nlFreeArticle (a : Article) : Prop :=
  '\n' ∉ a.id.getD [] ∧ '\n' ∉ a.sectionId.getD [] ∧ '\n' ∉ a.sectionName.getD [] ∧
  '\n' ∉ a.webTitle.getD [] ∧ '\n' ∉ a.webUrl.getD [] ∧
  '\n' ∉ (fieldsD a).headline.getD [] ∧ '\n' ∉ (fieldsD a).trailText.getD [] ∧
  '\n' ∉ (fieldsD a).byline.getD [] ∧ '\n' ∉ (fieldsD a).bodyText.getD [] ∧
  ∀ t ∈ tagsD a, '\n' ∉ t.id.getD [] ∧ '\n' ∉ t.title.getD [] ∧ '\n' ∉ t.type.getD []

instance (a : Article) : Decidable (nlFreeArticle a) := by
  unfold nlFreeArticle; infer_instance

/-- Every string used to construct the article is clean in the sense of
`cleanStr`. -/
def cleanArticle (a : Article) : Prop :=
  cleanStr (a.id.getD []) ∧ cleanStr (a.sectionId.getD []) ∧
  cleanStr (a.sectionName.getD []) ∧ cleanStr (a.webTitle.getD []) ∧
  cleanStr (a.webUrl.getD []) ∧
  cleanStr ((fieldsD a).headline.getD []) ∧ cleanStr ((fieldsD a).trailText.getD []) ∧
  cleanStr ((fieldsD a).byline.getD []) ∧ cleanStr ((fieldsD a).bodyText.getD []) ∧
  ∀ t ∈ tagsD a, cleanStr (t.id.getD []) ∧ cleanStr (t.title.getD []) ∧
    cleanStr (t.type.getD [])

instance (a : Article) : Decidable (cleanArticle a) := by
  unfold cleanArticle; infer_instance

/-- What the decoder needs of a header key: no separator, no newline,
stripping is the identity, and it starts with a non-whitespace character.
All 14 concrete keys of `formatLines` satisfy this by computation. -/
def goodKey (k : Str) : Prop :=
  ':' ∉ k ∧ '\n' ∉ k ∧ pyStrip k = k ∧ k ≠ [] ∧ isWS k.headI = false

instance (k : Str) : Decidable (goodKey k) := by
  unfold goodKey; infer_instance

/-- The result of folding the decoder's per-pair insertion over a list of
key/value pairs: what the line loop computes on a well-formed record. -/
def processKVs (m : Assoc) (kvs : List (Str × Str)) : Assoc :=
  kvs.foldl (fun m p => insertKV m p.1 (pyStrip p.2)) m

/-- The mapping the decoder produces from an encoded article: the synthetic
label entry followed by the 14 encoded pairs with stripped values. -/
def decodedMap (a : Article) (label : Str) : Assoc :=
  (("label").data, label) :: (articleKVs a).map fun p => (p.1, pyStrip p.2)

/-! ## Helper lemmas: stripping -/

theorem rdropWhile_cons' {α : Type} [DecidableEq α] (p : α → Bool) (c : α) (l : List α) :
    List.rdropWhile p (c :: l) =
      if List.rdropWhile p l = [] then (if p c then [] else [c])
      else c :: List.rdropWhile p l := by
  have hdef : List.rdropWhile p (c :: l) = (List.dropWhile p (l.reverse ++ [c])).reverse := by
    simp [List.rdropWhile]
  by_cases h : List.rdropWhile p l = []
  · have h' : List.dropWhile p l.reverse = [] := by
      have := congrArg List.reverse h
      simpa [List.rdropWhile] using this
    rw [hdef, List.dropWhile_append, h']
    by_cases hc : p c
    · simp [List.dropWhile_cons, hc, h]
    · simp [List.dropWhile_cons, hc, h]
  · have h' : List.dropWhile p l.reverse ≠ [] := by
      intro hh
      exact h (by simp [List.rdropWhile, hh])
    have hie : (List.dropWhile p l.reverse).isEmpty = false := by
      cases hval : List.dropWhile p l.reverse with
      | nil => exact absurd hval h'
      | cons x xs => rfl
    rw [hdef, List.dropWhile_append, hie]
    rw [if_neg h]
    simp [List.rdropWhile]

theorem rdropWhile_append_cons {α : Type} (p : α → Bool) (xs : List α) (y : α)
    (ys : List α) (hy : p y = false) :
    List.rdropWhile p (xs ++ y :: ys) = xs ++ y :: List.rdropWhile p ys := by
  have hdef : List.rdropWhile p (xs ++ y :: ys)
      = (List.dropWhile p (ys.reverse ++ y :: xs.reverse)).reverse := by
    simp [List.rdropWhile]
  by_cases h : List.dropWhile p ys.reverse = []
  · have h2 : List.rdropWhile p ys = [] := by simp [List.rdropWhile, h]
    rw [hdef, List.dropWhile_append, h]
    simp [List.dropWhile_cons, hy, h2]
  · have hie : (List.dropWhile p ys.reverse).isEmpty = false := by
      cases hval : List.dropWhile p ys.reverse with
      | nil => exact absurd hval h
      | cons x xs => rfl
    rw [hdef, List.dropWhile_append, hie]
    simp [List.rdropWhile]

theorem pyStrip_cons_ws (c : Char) (v : Str) (h : isWS c = true) :
    pyStrip (c :: v) = pyStrip v := by
  unfold pyStrip
  rw [rdropWhile_cons']
  by_cases h0 : List.rdropWhile isWS v = []
  · simp [h0, h]
  · rw [if_neg h0, List.dropWhile_cons, if_pos h]

theorem pyStrip_rdropWhile (v : Str) :
    pyStrip (List.rdropWhile isWS v) = pyStrip v := by
  unfold pyStrip
  rw [List.rdropWhile_idempotent]

theorem cleanStr_pyStrip (s : Str) (h : cleanStr s) : pyStrip s = s := by
  unfold pyStrip
  rw [h.2.2, h.2.1]

theorem head_not_of_dropWhile_eq_self {α : Type} (p : α → Bool) (c : α) (l : List α)
    (h : List.dropWhile p (c :: l) = c :: l) : p c = false := by
  by_cases hc : p c
  · exfalso
    rw [List.dropWhile_cons, if_pos hc] at h
    have hsuf : List.dropWhile p l <:+ l := List.dropWhile_suffix p
    have hlen := hsuf.length_le
    rw [h] at hlen
    simp at hlen
  · simpa using hc

/-! ## Helper lemmas: splitting and joining -/

theorem splitChar_no_sep (sep : Char) (l : Str) (h : sep ∉ l) :
    splitChar sep l = [l] := by
  induction l with
  | nil => rfl
  | cons c rest ih =>
    have hc : ¬ c = sep := fun e => h (e ▸ List.mem_cons_self c rest)
    rw [splitChar, if_neg hc, ih fun hm => h (List.mem_cons_of_mem c hm)]

theorem splitChar_append_sep (sep : Char) (l rest : Str) (h : sep ∉ l) :
    splitChar sep (l ++ sep :: rest) = l :: splitChar sep rest := by
  induction l with
  | nil => simp [splitChar]
  | cons c l' ih =>
    have hc : ¬ c = sep := fun e => h (e ▸ List.mem_cons_self c l')
    rw [List.cons_append, splitChar, if_neg hc,
      ih fun hm => h (List.mem_cons_of_mem c hm)]

theorem joinLines_cons (l : Str) (ls : List Str) (h : ls ≠ []) :
    joinLines (l :: ls) = l ++ '\n' :: joinLines ls := by
  cases ls with
  | nil => exact absurd rfl h
  | cons a as => rfl

theorem joinLines_append_last (ls : List Str) (l : Str) (h : ls ≠ []) :
    joinLines (ls ++ [l]) = joinLines ls ++ '\n' :: l := by
  induction ls with
  | nil => exact absurd rfl h
  | cons a as ih =>
    cases as with
    | nil => rfl
    | cons b bs =>
      rw [List.cons_append, joinLines_cons a ((b :: bs) ++ [l]) (by simp),
        joinLines_cons a (b :: bs) (by simp), ih (by simp)]
      simp

theorem splitChar_joinLines (ls : List Str) (h : ls ≠ [])
    (hnl : ∀ l ∈ ls, '\n' ∉ l) :
    splitChar '\n' (joinLines ls) = ls := by
  induction ls with
  | nil => exact absurd rfl h
  | cons a as ih =>
    cases as with
    | nil => simpa [joinLines] using splitChar_no_sep '\n' a (hnl a (by simp))
    | cons b bs =>
      rw [joinLines_cons a (b :: bs) (by simp),
        splitChar_append_sep '\n' a (joinLines (b :: bs)) (hnl a (by simp)),
        ih (by simp) fun l hl => hnl l (List.mem_cons_of_mem a hl)]

theorem splitFirst_eq_none (sep : Char) (l : Str) :
    splitFirst sep l = none ↔ sep ∉ l := by
  induction l with
  | nil => simp [splitFirst]
  | cons c rest ih =>
    by_cases hc : c = sep
    · subst hc; simp [splitFirst]
    · rw [splitFirst, if_neg hc, Option.map_eq_none', ih]
      constructor
      · intro h hm
        rcases List.mem_cons.mp hm with h1 | h2
        · exact hc h1.symm
        · exact h h2
      · intro h hm
        exact h (List.mem_cons_of_mem c hm)

theorem splitFirst_append (sep : Char) (k v : Str) (h : sep ∉ k) :
    splitFirst sep (k ++ sep :: v) = some (k, v) := by
  induction k with
  | nil => simp [splitFirst]
  | cons c k' ih =>
    have hc : ¬ c = sep := fun e => h (e ▸ List.mem_cons_self c k')
    rw [List.cons_append, splitFirst, if_neg hc,
      ih fun hm => h (List.mem_cons_of_mem c hm)]
    rfl

theorem splitFirst_some (sep : Char) (l : Str) (k v : Str)
    (h : splitFirst sep l = some (k, v)) : l = k ++ sep :: v ∧ sep ∉ k := by
  induction l generalizing k v with
  | nil => simp [splitFirst] at h
  | cons c rest ih =>
    by_cases hc : c = sep
    · subst hc
      rw [splitFirst, if_pos rfl] at h
      simp only [Option.some.injEq, Prod.mk.injEq] at h
      obtain ⟨hk, hv⟩ := h
      subst hk; subst hv
      simp
    · rw [splitFirst, if_neg hc] at h
      cases hsf : splitFirst sep rest with
      | none => rw [hsf] at h; simp at h
      | some p =>
        rw [hsf] at h
        simp only [Option.map_some', Option.some.injEq] at h
        have hk : c :: p.1 = k := congrArg Prod.fst h
        have hv : p.2 = v := congrArg Prod.snd h
        obtain ⟨hrest, hnk⟩ := ih p.1 p.2 (by rw [hsf])
        subst hk; subst hv
        constructor
        · rw [List.cons_append, ← hrest]
        · intro hm
          rcases List.mem_cons.mp hm with h1 | h2
          · exact hc h1.symm
          · exact hnk h2

/-! ## Helper lemmas: the modelled dict and the line loop -/

theorem lookupKV_insertKV_self (m : Assoc) (k v : Str) :
    lookupKV (insertKV m k v) k = some v := by
  induction m with
  | nil => simp [insertKV, lookupKV]
  | cons p rest ih =>
    by_cases h : p.1 = k
    · rw [insertKV, if_pos h, lookupKV, if_pos rfl]
    · rw [insertKV, if_neg h, lookupKV, if_neg h, ih]

theorem processLines_nil (m : Assoc) : processLines m [] = m := rfl

theorem processLines_cons (m : Assoc) (l : Str) (ls : List Str) :
    processLines m (l :: ls) = processLines (processLine m l) ls := rfl

theorem processLines_append (m : Assoc) (l1 l2 : List Str) :
    processLines m (l1 ++ l2) = processLines (processLines m l1) l2 :=
  List.foldl_append processLine m l1 l2

theorem processLine_no_sep (m : Assoc) (line : Str) (h : ':' ∉ line) :
    processLine m line = m := by
  rw [processLine, (splitFirst_eq_none ':' line).mpr h]

theorem processLine_sep (m : Assoc) (k v : Str) (hk : ':' ∉ k) :
    processLine m (k ++ ':' :: v) = insertKV m (pyStrip k) (pyStrip v) := by
  rw [processLine, splitFirst_append ':' k v hk]

theorem processLines_mkLines (kvs : List (Str × Str)) (m : Assoc)
    (h : ∀ p ∈ kvs, goodKey p.1) :
    processLines m (kvs.map fun p => mkLine p.1 p.2) = processKVs m kvs := by
  induction kvs generalizing m with
  | nil => rfl
  | cons q qs ih =>
    have hq := h q (List.mem_cons_self q qs)
    rw [List.map_cons, processLines_cons, mkLine, processLine_sep m q.1 (' ' :: q.2) hq.1,
      hq.2.2.1, pyStrip_cons_ws ' ' q.2 (by decide),
      ih (insertKV m q.1 (pyStrip q.2)) fun p hp => h p (List.mem_cons_of_mem q hp)]
    rfl

/-- Decoding the joined lines of well-formed `key: value` pairs yields exactly
the insertion of each pair (with stripped value) on top of the label entry.
This is the heart of the round-trip analysis; it only requires values to be
newline-free, so the outer `strip` of the content can eat into the trailing
whitespace of the final value without changing any decoded entry. -/
theorem decodeContent_joinKVs (label : Str) (kvs : List (Str × Str)) (k v : Str)
    (hkvs : ∀ p ∈ kvs, goodKey p.1 ∧ '\n' ∉ p.2)
    (hk : goodKey k) (hv : '\n' ∉ v) (hne : kvs ≠ []) :
    decodeContent label (joinLines ((kvs ++ [(k, v)]).map fun p => mkLine p.1 p.2))
      = processKVs [(("label").data, label)] (kvs ++ [(k, v)]) := by
  obtain ⟨q, qs, rfl⟩ : ∃ q qs, kvs = q :: qs := by
    cases kvs with
    | nil => exact absurd rfl hne
    | cons q qs => exact ⟨q, qs, rfl⟩
  set kvs := q :: qs with hkvsdef
  set L := kvs.map fun p => mkLine p.1 p.2 with hL
  have hLne : L ≠ [] := by simp [hL]
  -- the raw content, with the final line exposed as `… ++ ':' :: ' ' :: v`
  have hcontent :
      joinLines ((kvs ++ [(k, v)]).map fun p => mkLine p.1 p.2)
        = (joinLines L ++ '\n' :: k) ++ ':' :: ' ' :: v := by
    rw [List.map_append, List.map_singleton, joinLines_append_last _ _ hLne]
    simp [mkLine]
  -- strip from the right: only the trailing part of the final value is touched
  set w := List.rdropWhile isWS (' ' :: v) with hw
  have hstrip1 :
      List.rdropWhile isWS ((joinLines L ++ '\n' :: k) ++ ':' :: ' ' :: v)
        = (joinLines L ++ '\n' :: k) ++ ':' :: w := by
    rw [rdropWhile_append_cons isWS _ ':' (' ' :: v) (by decide)]
  -- strip from the left: the content starts with the first key's head character
  obtain ⟨c, k1, hck⟩ : ∃ c k1, q.1 = c :: k1 := by
    cases hq1 : q.1 with
    | nil => exact absurd hq1 (hkvs q (List.mem_cons_self q qs)).1.2.2.2.1
    | cons c k1 => exact ⟨c, k1, rfl⟩
  have hcws : isWS c = false := by
    have := (hkvs q (List.mem_cons_self q qs)).1.2.2.2.2
    rwa [hck, List.headI] at this
  have hhead : ∃ t, (joinLines L ++ '\n' :: k) ++ ':' :: w = c :: t := by
    have hjl : ∃ t0, joinLines L = c :: t0 := by
      cases qs with
      | nil => exact ⟨k1 ++ ':' :: ' ' :: q.2, by simp [hL, hkvsdef, joinLines, mkLine, hck]⟩
      | cons r rs =>
        refine ⟨(k1 ++ ':' :: ' ' :: q.2) ++ '\n' :: joinLines ((r :: rs).map fun p => mkLine p.1 p.2), ?_⟩
        rw [hL, hkvsdef, List.map_cons, joinLines_cons _ _ (by simp), mkLine, hck]
        simp
    obtain ⟨t0, ht0⟩ := hjl
    exact ⟨(t0 ++ '\n' :: k) ++ ':' :: w, by rw [ht0]; simp⟩
  have hstrip2 :
      pyStrip ((joinLines L ++ '\n' :: k) ++ ':' :: ' ' :: v)
        = (joinLines L ++ '\n' :: k) ++ ':' :: w := by
    obtain ⟨t, ht⟩ := hhead
    rw [pyStrip, hstrip1, ht, List.dropWhile_cons, if_neg (by rw [hcws]; simp), ← ht]
  -- the stripped content splits back into the 13 leading lines plus the
  -- truncated final line
  have hwnl : '\n' ∉ w := by
    intro hm
    have hsub : w ⊆ ' ' :: v := (List.rdropWhile_prefix isWS (' ' :: v)).subset
    rcases List.mem_cons.mp (hsub hm) with h1 | h2
    · exact absurd h1 (by decide)
    · exact hv h2
  have hsplit :
      splitChar '\n' ((joinLines L ++ '\n' :: k) ++ ':' :: w)
        = L ++ [k ++ ':' :: w] := by
    have : (joinLines L ++ '\n' :: k) ++ ':' :: w = joinLines (L ++ [k ++ ':' :: w]) := by
      rw [joinLines_append_last _ _ hLne]
      simp
    rw [this]
    refine splitChar_joinLines _ (by simp [hLne]) ?_
    intro l hl
    rcases List.mem_append.mp hl with h1 | h2
    · rw [hL] at h1
      obtain ⟨p, hp, rfl⟩ := List.mem_map.mp h1
      intro hm
      rw [mkLine] at hm
      rcases List.mem_append.mp hm with ha | hb
      · exact (hkvs p hp).1.2.1 ha
      · rcases List.mem_cons.mp hb with hx | hy
        · exact absurd hx (by decide)
        · rcases List.mem_cons.mp hy with hx' | hy'
          · exact absurd hx' (by decide)
          · exact (hkvs p hp).2 hy'
    · rw [List.mem_singleton.mp h2]
      intro hm
      rcases List.mem_append.mp hm with ha | hb
      · exact hk.2.1 ha
      · rcases List.mem_cons.mp hb with hx | hy
        · exact absurd hx (by decide)
        · exact hwnl hy
  -- run the line loop
  rw [decodeContent, hcontent, hstrip2, hsplit, processLines_append,
    processLines_mkLines kvs _ fun p hp => (hkvs p hp).1,
    processLines_cons, processLine_sep _ k w hk.1, hk.2.2.1, processLines_nil]
  rw [hw, pyStrip_rdropWhile, pyStrip_cons_ws ' ' v (by decide)]
  simp only [processKVs, List.foldl_append, List.foldl_cons, List.foldl_nil]

/-! ## Helper lemmas: `joinCSV` and the article instantiation -/

theorem not_mem_joinCSV (c : Char) (vs : List Str) (hc : c ≠ ',')
    (h : ∀ v ∈ vs, c ∉ v) : c ∉ joinCSV vs := by
  induction vs with
  | nil => simp [joinCSV]
  | cons v vs ih =>
    cases vs with
    | nil => simpa [joinCSV] using h v (List.mem_cons_self v [])
    | cons w ws =>
      have hj : joinCSV (v :: w :: ws) = v ++ ',' :: joinCSV (w :: ws) := rfl
      rw [hj]
      intro hm
      rcases List.mem_append.mp hm with h1 | h2
      · exact h v (List.mem_cons_self v (w :: ws)) h1
      · rcases List.mem_cons.mp h2 with hx | hy
        · exact hc hx
        · exact ih (fun u hu => h u (List.mem_cons_of_mem v hu)) hy

theorem joinCSV_clean (vs : List Str) (h : ∀ v ∈ vs, cleanStr v) :
    cleanStr (joinCSV vs) := by
  induction vs with
  | nil => exact ⟨by simp [joinCSV], rfl, rfl⟩
  | cons v vs ih =>
    cases vs with
    | nil => simpa [joinCSV] using h v (List.mem_cons_self v [])
    | cons w ws =>
      have hv := h v (List.mem_cons_self v (w :: ws))
      have hrest := ih fun u hu => h u (List.mem_cons_of_mem v hu)
      have hj : joinCSV (v :: w :: ws) = v ++ ',' :: joinCSV (w :: ws) := rfl
      rw [hj]
      refine ⟨?_, ?_, ?_⟩
      · have := not_mem_joinCSV '\n' (v :: w :: ws) (by decide) fun u hu => (h u hu).1
        rwa [hj] at this
      · cases hv' : v with
        | nil => rw [List.nil_append, List.dropWhile_cons, if_neg (by decide)]
        | cons a as =>
          have ha : isWS a = false := head_not_of_dropWhile_eq_self isWS a as (hv' ▸ hv.2.1)
          rw [List.cons_append, List.dropWhile_cons, if_neg (by rw [ha]; simp)]
      · rw [rdropWhile_append_cons isWS v ',' (joinCSV (w :: ws)) (by decide), hrest.2.2]

theorem format_article_eq_joinKVs (a : Article) :
    format_article a = joinLines ((articleKVs a).map fun p => mkLine p.1 p.2) := rfl

theorem nlFree_values (a : Article) (h : nlFreeArticle a) :
    ∀ p ∈ articleKVs a, '\n' ∉ p.2 := by
  obtain ⟨h1, h2, h3, h4, h5, h6, h7, h8, h9, htags⟩ := h
  have hids : '\n' ∉ joinCSV ((tagsD a).map fun t => t.id.getD []) := by
    refine not_mem_joinCSV '\n' _ (by decide) ?_
    intro u hu
    obtain ⟨t, ht, rfl⟩ := List.mem_map.mp hu
    exact (htags t ht).1
  have htitles : '\n' ∉ joinCSV ((tagsD a).map fun t => t.title.getD []) := by
    refine not_mem_joinCSV '\n' _ (by decide) ?_
    intro u hu
    obtain ⟨t, ht, rfl⟩ := List.mem_map.mp hu
    exact (htags t ht).2.1
  have hpid : '\n' ∉ primaryId a := by
    rw [primaryId]
    cases htl : tagsD a with
    | nil => simp
    | cons t ts => simpa using (htags t (htl ▸ List.mem_cons_self t ts)).1
  have hptitle : '\n' ∉ primaryTitle a := by
    rw [primaryTitle]
    cases htl : tagsD a with
    | nil => simp
    | cons t ts => simpa using (htags t (htl ▸ List.mem_cons_self t ts)).2.1
  have hptype : '\n' ∉ primaryType a := by
    rw [primaryType]
    cases htl : tagsD a with
    | nil => simp
    | cons t ts => simpa using (htags t (htl ▸ List.mem_cons_self t ts)).2.2
  intro p hp
  rw [articleKVs] at hp
  simp only [List.mem_cons, List.not_mem_nil, or_false] at hp
  rcases hp with rfl | rfl | rfl | rfl | rfl | rfl | rfl | rfl | rfl | rfl | rfl | rfl | rfl | rfl <;>
    assumption

theorem articleKVs_keys_good (a : Article) : ∀ p ∈ articleKVs a, goodKey p.1 := by
  intro p hp
  have hmem : p.1 ∈ (articleKVs a).map Prod.fst := List.mem_map_of_mem Prod.fst hp
  have hkeys : (articleKVs a).map Prod.fst =
      [("ID").data, ("SECTION_ID").data, ("SECTION_NAME").data, ("WEB_TITLE").data,
       ("WEB_URL").data, ("HEADLINE").data, ("TRAIL_TEXT").data, ("BYLINE").data,
       ("BODY_TEXT").data, ("TAGS_IDS").data, ("TAGS_TITLES").data,
       ("PRIMARY_TAG_ID").data, ("PRIMARY_TAG_TITLE").data,
       ("PRIMARY_TAG_TYPE").data] := by
    simp [articleKVs]
  rw [hkeys] at hmem
  simp only [List.mem_cons, List.not_mem_nil, or_false] at hmem
  rcases hmem with h' | h' | h' | h' | h' | h' | h' | h' | h' | h' | h' | h' | h' | h' <;>
    rw [h'] <;> decide

/-- Decoding an encoded article whose constructor strings are newline-free
yields the label entry followed by the 14 pairs with stripped values. -/
theorem decodeContent_format_article (a : Article) (label : Str)
    (h : nlFreeArticle a) :
    decodeContent label (format_article a) = decodedMap a label := by
  have hvals := nlFree_values a h
  have hgood := articleKVs_keys_good a
  have hsplit : articleKVs a
      = (articleKVs a).dropLast ++ [(("PRIMARY_TAG_TYPE").data, primaryType a)] := by
    simp [articleKVs]
  rw [format_article_eq_joinKVs, hsplit,
    decodeContent_joinKVs label ((articleKVs a).dropLast) _ _
      (fun p hp => ⟨hgood p (List.dropLast_subset _ hp),
        hvals p (List.dropLast_subset _ hp)⟩)
      (by decide)
      (by
        have := hvals (("PRIMARY_TAG_TYPE").data, primaryType a) (by rw [hsplit]; simp)
        simpa using this)
      (by simp [articleKVs])]
  rw [← hsplit]
  simp only [decodedMap, processKVs, articleKVs, List.foldl_cons, List.foldl_nil,
    insertKV, List.map_cons, List.map_nil]
  simp

theorem cleanArticle_nlFree (a : Article) (h : cleanArticle a) : nlFreeArticle a := by
  obtain ⟨h1, h2, h3, h4, h5, h6, h7, h8, h9, htags⟩ := h
  exact ⟨h1.1, h2.1, h3.1, h4.1, h5.1, h6.1, h7.1, h8.1, h9.1,
    fun t ht => ⟨(htags t ht).1.1, (htags t ht).2.1.1, (htags t ht).2.2.1⟩⟩

theorem clean_values (a : Article) (h : cleanArticle a) :
    ∀ p ∈ articleKVs a, cleanStr p.2 := by
  obtain ⟨h1, h2, h3, h4, h5, h6, h7, h8, h9, htags⟩ := h
  have hids : cleanStr (joinCSV ((tagsD a).map fun t => t.id.getD [])) := by
    refine joinCSV_clean _ ?_
    intro u hu
    obtain ⟨t, ht, rfl⟩ := List.mem_map.mp hu
    exact (htags t ht).1
  have htitles : cleanStr (joinCSV ((tagsD a).map fun t => t.title.getD [])) := by
    refine joinCSV_clean _ ?_
    intro u hu
    obtain ⟨t, ht, rfl⟩ := List.mem_map.mp hu
    exact (htags t ht).2.1
  have hpid : cleanStr (primaryId a) := by
    rw [primaryId]
    cases htl : tagsD a with
    | nil => exact ⟨by simp, rfl, rfl⟩
    | cons t ts => simpa using (htags t (htl ▸ List.mem_cons_self t ts)).1
  have hptitle : cleanStr (primaryTitle a) := by
    rw [primaryTitle]
    cases htl : tagsD a with
    | nil => exact ⟨by simp, rfl, rfl⟩
    | cons t ts => simpa using (htags t (htl ▸ List.mem_cons_self t ts)).2.1
  have hptype : cleanStr (primaryType a) := by
    rw [primaryType]
    cases htl : tagsD a with
    | nil => exact ⟨by simp, rfl, rfl⟩
    | cons t ts => simpa using (htags t (htl ▸ List.mem_cons_self t ts)).2.2
  intro p hp
  rw [articleKVs] at hp
  simp only [List.mem_cons, List.not_mem_nil, or_false] at hp
  rcases hp with rfl | rfl | rfl | rfl | rfl | rfl | rfl | rfl | rfl | rfl | rfl | rfl | rfl | rfl <;>
    assumption

theorem map_pyStrip_id (l : List (Str × Str)) (h : ∀ p ∈ l, cleanStr p.2) :
    (l.map fun p => (p.1, pyStrip p.2)) = l := by
  induction l with
  | nil => rfl
  | cons p ps ih =>
    rw [List.map_cons, cleanStr_pyStrip p.2 (h p (List.mem_cons_self p ps)),
      ih fun q hq => h q (List.mem_cons_of_mem p hq)]

theorem decodedMap_clean (a : Article) (label : Str) (h : cleanArticle a) :
    decodedMap a label = (("label").data, label) :: articleKVs a := by
  rw [decodedMap, map_pyStrip_id (articleKVs a) (clean_values a h)]

/-! ## Helper lemmas: the collection loop -/

/-- If the quota is not yet reached and the last article of the current page
already has its file in the store, the loop's skip branch restarts the same
`while` iteration with page, count and store unchanged, so the loop never
terminates, no matter how much fuel it is given. -/
theorem collectRun_stuck (pages : Nat → List Article) (name : Str) (quota : Nat)
    (art : Article) :
    ∀ (fuel : Nat) (s : CState), s.count < quota →
      (pages s.page).getLast? = some art →
      artFileName name s.page s.count art ∈ s.store.map Prod.fst →
      (collectRun pages name quota fuel s).1 = false := by
  intro fuel
  induction fuel with
  | zero => intro s _ _ _; rfl
  | succ n ih =>
    intro s hcount hlast hmem
    rw [collectRun, if_pos hcount]
    simp only [hlast]
    rw [if_pos hmem]
    exact ih { s with requests := s.requests + 1 } hcount hlast hmem

/-! ## Claim C1 -/

/-- Claim C1, counterexample to the raw statement: a field value with a
leading space is stripped by the decoder, and a field value embedding a
newline breaks into extra lines, one of which even overwrites the `ID`
entry — so `Decode(Encode(article), label)` does not reproduce every field
value of an arbitrary article. -/
theorem roundTrip_raw_fails :
    lookupKV (decodeContent (("news").data) (format_article articleWS))
        (("WEB_TITLE").data) ≠ some ((" x").data)
    ∧ lookupKV (decodeContent (("news").data) (format_article articleNL))
        (("WEB_TITLE").data) ≠ some (("x\nID: z").data)
    ∧ lookupKV (decodeContent (("news").data) (format_article articleNL))
        (("ID").data) ≠ some (("a").data) := by
  decide

/-- Claim C1 (amended): for every article whose constructor strings (scalar
fields and each tag's id/title/type) contain no newline and no leading or
trailing whitespace, decoding the encoded record with a caller-supplied label
yields exactly the mapping of the 14 encoded fields — each scalar field
reproduced verbatim and tag lists by their comma-joined encoding — preceded by
the `label` entry holding the supplied label. -/
theorem roundTrip_clean (a : Article) (label : Str) (h : cleanArticle a) :
    decodeContent label (format_article a)
      = (("label").data, label) :: articleKVs a := by
  rw [decodeContent_format_article a label (cleanArticle_nlFree a h),
    decodedMap_clean a label h]

/-- Witness for C1: the round trip on a concrete fully-populated article. -/
theorem roundTrip_clean_witness :
    cleanArticle articleW
    ∧ decodeContent (("sport").data) (format_article articleW)
        = (("label").data, ("sport").data) :: articleKVs articleW :=
  ⟨by decide, roundTrip_clean articleW (("sport").data) (by decide)⟩

/-! ## Claim C2 -/

/-- Claim C2: collecting quota 2 from a deterministic two-page source
terminates, but re-running the collection over the stored files of the first
run never terminates, for any number of loop iterations: the skip branch of
`collect_section` is a `continue` of the `while` loop that re-fetches the
same page with page, count and store unchanged.  This contradicts the claim
that a second run terminates with the same set of stored files. -/
theorem second_run_never_terminates :
    (collect_section pagesEx (("news").data) 2 20 []).1 = true
    ∧ ∀ fuel, (collect_section pagesEx (("news").data) 2 fuel
        ((collect_section pagesEx (("news").data) 2 20 []).2.store)).1 = false := by
  constructor
  · decide
  · intro fuel
    rw [collect_section]
    exact collectRun_stuck pagesEx (("news").data) 2 (mkA (("c").data)) fuel _
      (by decide) (by decide) (by decide)

/-! ## Claim C3 -/

/-- Claim C3: with quota 0 the loop performs no requests and writes nothing
(first conjunct, for every source and prior store).  But with quota 2 and a
first page holding 3 articles, the code still requests a second page, because
the per-page loop writes only the page's last article: after page 1 only
`c.txt` exists, so a second request is made — refuting the claim that no
second page is requested when the page size exceeds the quota. -/
theorem quota_boundary_eval (pages : Nat → List Article) (name : Str)
    (fuel : Nat) (store : List (Str × Str)) :
    collect_section pages name 0 (fuel + 1) store
      = (true, { count := 0, page := 1, store := store, requests := 0, sleeps := 0 })
    ∧ (collect_section pagesEx (("news").data) 2 20 []).2.requests = 2
    ∧ (collect_section pagesEx (("news").data) 2 20 []).2.store.map Prod.fst
        = [("c.txt").data, ("f.txt").data] := by
  refine ⟨?_, by decide, by decide⟩
  rw [collect_section, collectRun, if_neg (by decide : ¬ (0 < 0))]

/-! ## Claim C4 -/

/-- Claim C4, counterexample to the raw statement: when the storage object
cannot be read, `parse_article` does not propagate the I/O error — the
`except` clause catches it and the function returns `None`. -/
theorem read_error_swallowed :
    parse_article (("news").data) (Except.error (("disk failure").data))
      = Except.ok none
    ∧ (Except.ok none : Except Str (Option Assoc))
        ≠ Except.error (("disk failure").data) :=
  ⟨rfl, fun h => nomatch h⟩

/-- Claim C4 (amended): `parse_article` never raises — neither on malformed
lines (the decoder is total) nor on a read failure, which it catches,
reports, and converts to a `None` result instead of propagating. -/
theorem decode_never_raises (label : Str) (r : Except Str Str) :
    (∃ m', parse_article label r = Except.ok m')
    ∧ (∀ e, r = Except.error e → parse_article label r = Except.ok none) := by
  cases r with
  | error e => exact ⟨⟨none, rfl⟩, fun e' _ => rfl⟩
  | ok c => exact ⟨⟨some (decodeContent label c), rfl⟩, fun e h => nomatch h⟩

/-- Witness for C4: a concrete failed read yields `ok none`. -/
theorem decode_never_raises_witness :
    parse_article (("x").data) (Except.error (("boom").data)) = Except.ok none :=
  (decode_never_raises (("x").data) (Except.error (("boom").data))).2
    (("boom").data) rfl

/-! ## Claim C5 -/

/-- Claim C5: when the page's (last) article is skipped because its file
exists, the loop re-requests the *same* page immediately: four loop
iterations issue four requests with zero sleeps and the page number still 1 —
refuting the claim that the paginator waits the fixed delay before the next
page request after skipping.  (Last conjunct: in a normal quota-2 run the
single inter-page wait happens and no wait follows the final written item,
the part of the claim the code does honour.) -/
theorem skip_rerequests_without_sleep :
    (collect_section pagesEx (("news").data) 2 4 storeC).1 = false
    ∧ (collect_section pagesEx (("news").data) 2 4 storeC).2.requests = 4
    ∧ (collect_section pagesEx (("news").data) 2 4 storeC).2.sleeps = 0
    ∧ (collect_section pagesEx (("news").data) 2 4 storeC).2.page = 1
    ∧ (collect_section pagesEx (("news").data) 2 20 []).2.sleeps = 1 := by
  decide

/-! ## Claim C6 -/

/-- Claim C6: the decoder splits the stripped content into lines and folds
over them; a line without `':'` is ignored; a line with `':'` is split once
at the first `':'` (the returned key is exactly the text before the first
separator), key and value are stripped and inserted; and an insertion for an
existing key overwrites it, so the last occurrence of a duplicate key wins. -/
theorem decode_line_semantics (label content line k v : Str) (m : Assoc)
    (ls : List Str) :
    (decodeContent label content
        = processLines [(("label").data, label)] (splitChar '\n' (pyStrip content)))
    ∧ (':' ∉ line → processLines m (line :: ls) = processLines m ls)
    ∧ (splitFirst ':' line = some (k, v) →
        line = k ++ ':' :: v ∧ ':' ∉ k
        ∧ processLines m (line :: ls)
            = processLines (insertKV m (pyStrip k) (pyStrip v)) ls)
    ∧ lookupKV (insertKV m k v) k = some v := by
  refine ⟨rfl, ?_, ?_, lookupKV_insertKV_self m k v⟩
  · intro h
    rw [processLines_cons, processLine_no_sep m line h]
  · intro h
    obtain ⟨heq, hnk⟩ := splitFirst_some ':' line k v h
    refine ⟨heq, hnk, ?_⟩
    rw [processLines_cons, processLine, h]

/-- Witness for C6: a separator-free line is ignored; a `k: v` line decodes
to a stripped insertion; the duplicate-key insertion keeps the last value. -/
theorem decode_line_semantics_witness :
    processLines [] [("no separator").data] = []
    ∧ processLines [] [("a: b").data] = [(("a").data, ("b").data)]
    ∧ lookupKV (insertKV [((("a").data), ("old").data)] (("a").data) (("new").data))
        (("a").data) = some (("new").data) := by
  refine ⟨?_, ?_, ?_⟩
  · rw [(decode_line_semantics [] [] (("no separator").data) [] [] [] []).2.1
      (by decide)]
    rfl
  · rw [((decode_line_semantics [] [] (("a: b").data) (("a").data) ((" b").data)
      [] []).2.2.1 (by decide)).2.2]
    decide
  · exact (decode_line_semantics [] [] [] (("a").data) (("new").data)
      [((("a").data), ("old").data)] []).2.2.2

/-! ## Claim C7 -/

/-- Claim C7: the two-tag article encodes comma-joined tag lines and the
first tag as primary; the empty-tag article encodes all five tag-related
lines with empty values and no stray comma. -/
theorem tag_derivation :
    ((formatLines articleTags).getD 9 [] = ("TAGS_IDS: t1,t2").data
     ∧ (formatLines articleTags).getD 10 [] = ("TAGS_TITLES: T1,T2").data
     ∧ (formatLines articleTags).getD 11 [] = ("PRIMARY_TAG_ID: t1").data
     ∧ (formatLines articleTags).getD 12 [] = ("PRIMARY_TAG_TITLE: T1").data)
    ∧ ((formatLines articleNoTags).getD 9 [] = ("TAGS_IDS: ").data
     ∧ (formatLines articleNoTags).getD 10 [] = ("TAGS_TITLES: ").data
     ∧ (formatLines articleNoTags).getD 11 [] = ("PRIMARY_TAG_ID: ").data
     ∧ (formatLines articleNoTags).getD 12 [] = ("PRIMARY_TAG_TITLE: ").data
     ∧ (formatLines articleNoTags).getD 13 [] = ("PRIMARY_TAG_TYPE: ").data) := by
  decide

/-! ## Claim C8 -/

/-- Claim C8: encoding is total — in particular, when the `fields` mapping is
absent (or null, collapsed to the same default) all four `fields`-derived
lines carry the empty value, and when `fields` is present each individually
missing key yields the empty value for its line. -/
theorem encode_missing_fields (a : Article) :
    (a.fields = none →
      (formatLines a).getD 5 [] = ("HEADLINE: ").data
      ∧ (formatLines a).getD 6 [] = ("TRAIL_TEXT: ").data
      ∧ (formatLines a).getD 7 [] = ("BYLINE: ").data
      ∧ (formatLines a).getD 8 [] = ("BODY_TEXT: ").data)
    ∧ (∀ f, a.fields = some f →
      (f.headline = none → (formatLines a).getD 5 [] = ("HEADLINE: ").data)
      ∧ (f.trailText = none → (formatLines a).getD 6 [] = ("TRAIL_TEXT: ").data)
      ∧ (f.byline = none → (formatLines a).getD 7 [] = ("BYLINE: ").data)
      ∧ (f.bodyText = none → (formatLines a).getD 8 [] = ("BODY_TEXT: ").data)) := by
  constructor
  · intro h
    refine ⟨?_, ?_, ?_, ?_⟩ <;> simp [formatLines, fieldsD, h]
  · intro f hf
    refine ⟨fun hh => ?_, fun hh => ?_, fun hh => ?_, fun hh => ?_⟩ <;>
      simp [formatLines, fieldsD, hf, hh]

/-- Witness for C8: a concrete article without `fields` and one with an
empty `fields` mapping. -/
theorem encode_missing_fields_witness :
    (formatLines articleNoFields).getD 5 [] = ("HEADLINE: ").data
    ∧ (formatLines articleEmptyFields).getD 8 [] = ("BODY_TEXT: ").data :=
  ⟨((encode_missing_fields articleNoFields).1 rfl).1,
   ((encode_missing_fields articleEmptyFields).2
      { headline := none, trailText := none, byline := none, bodyText := none }
      rfl).2.2.2 rfl⟩

/-! ## Claim C9 -/

/-- Claim C9, counterexample to the raw statement: a stored record whose web
title embeds the line `label: hacked` makes the decoder overwrite the
synthetic `label` entry, so the decoded label is not the caller-supplied one
for every stored record file. -/
theorem label_entry_overwritten :
    lookupKV (decodeContent (("news").data) (format_article articleInj))
        (("label").data) = some (("hacked").data)
    ∧ (("hacked").data : Str) ≠ ("news").data := by
  decide

/-- Claim C9 (amended): for every stored record file encoded from an article
whose constructor strings contain no newline, the decoded mapping's `label`
entry equals the caller-supplied label (the parent directory name), no matter
what `SECTION_NAME` or any other field value says. -/
theorem label_from_caller (a : Article) (label : Str) (h : nlFreeArticle a) :
    lookupKV (decodeContent label (format_article a)) (("label").data)
      = some label := by
  rw [decodeContent_format_article a label h, decodedMap, lookupKV, if_pos rfl]

/-- Witness for C9: the label of a decoded concrete record equals the
supplied grouping name even though its `SECTION_NAME` differs. -/
theorem label_from_caller_witness :
    nlFreeArticle articleW
    ∧ lookupKV (decodeContent (("culture").data) (format_article articleW))
        (("label").data) = some (("culture").data)
    ∧ lookupKV (decodeContent (("culture").data) (format_article articleW))
        (("SECTION_NAME").data) = some (("News").data) :=
  ⟨by decide, label_from_caller articleW (("culture").data) (by decide), by decide⟩

/-! ## Claim C10 -/

/-- Claim C10: when the article's id is absent or empty, the sanitized id is
the empty (falsy) string, and the stored file name falls back to the
synthetic `<category>_<page>_<count>.txt` key, which is never empty. -/
theorem fallback_storage_key (name : Str) (page count : Nat) (a : Article)
    (h : a.id.getD [] = []) :
    artFileName name page count a
      = (name ++ ('_' :: natStr page) ++ ('_' :: natStr count)) ++ (".txt").data
    ∧ artId name page count a ≠ [] := by
  have hraw : sanitizeId (a.id.getD []) = [] := by rw [h]; rfl
  constructor
  · rw [artFileName, artId]
    simp [hraw]
  · rw [artId]
    simp [hraw]

/-- Witness for C10: the id-less article stored on page 3 as item 7 of the
`news` category gets the synthetic file name `news_3_7.txt`. -/
theorem fallback_storage_key_witness :
    artFileName (("news").data) 3 7 articleNoId = ("news_3_7.txt").data
    ∧ artId (("news").data) 3 7 articleNoId ≠ [] := by
  have h := fallback_storage_key (("news").data) 3 7 articleNoId rfl
  exact ⟨by rw [h.1]; decide, h.2⟩

end MLHW
